import Mathlib

/-!
Verification development for `googledrive.py` (pyGoogleDrive), a thin
wrapper over the Google Drive v3 API.  The pure control flow of the
wrapper is embedded shallowly: Python exceptions become `Except`,
Python `None` becomes `Option`, Python string truthiness is modelled
explicitly, and the remote Drive service (an external collaborator of
the repository) is modelled as an explicit state of file records.
-/

/-! ## Python value semantics helpers -/

/-- Python truthiness of an optional string: `None` and `''` are falsy,
every other string is truthy (used by `if parent_id:`, `if query:`,
`if fileid:`, `if fields:` in the source). -/
def pyTruthy : Option String → Bool
  | none => false
  | some s => !(s == "")

/-- Rendering of an optional string inside a Python f-string:
`None` renders as the four characters `"None"`, a string renders as
itself (used by `f"'{parent_id}' in parents ..."`). -/
def pyStr : Option String → String
  | none => "None"
  | some s => s

/-- Substring test on character lists: Python's `needle in hay`. -/
def listContainsSub : List Char → List Char → Bool
  | hay, needle =>
    needle.isPrefixOf hay ||
      match hay with
      | [] => false
      | _ :: t => listContainsSub t needle

/-- Python's `needle in hay` on strings (substring containment). -/
def strContains (hay needle : String) : Bool :=
  listContainsSub hay.data needle.data

/-! ## Retry wrapper (`GoogleDrive.__retry`, src lines 126-136)

The wrapped zero-argument operation is modelled as a function from the
attempt number (0-based) to an `Except` result, so that one model
covers an operation whose outcome changes between attempts. -/

/-- Python exceptions as seen by `__retry`: `TimeoutError` and
`HttpError` are the caught (transient) classes; everything else is
some other exception type. -/
inductive PyErr : Type
  | timeout : PyErr
  | httpError : Nat → PyErr
  | other : String → PyErr
deriving DecidableEq, Repr

/-- The transient classes caught by `except (TimeoutError, HttpError)`. -/
def PyErr.isTransient : PyErr → Bool
  | .timeout => true
  | .httpError _ => true
  | .other _ => false

/-- One run of the `while True` loop of `__retry`, starting at a given
attempt number with `fuel = max_retry - ctry` remaining retries.
Returns the final result, the number of calls made to the operation,
and the list of sleep durations performed (each `retry_interval`).
When `fuel = 0` (i.e. `ctry == self.max_retry`) a transient failure is
re-raised unchanged; a non-transient failure is never caught. -/
def retryAux {α : Type} (op : Nat → Except PyErr α) (interval attempt fuel : Nat) :
    Except PyErr α × Nat × List Nat :=
  match op attempt with
  | .ok a => (.ok a, 1, [])
  | .error e =>
    if e.isTransient then
      match fuel with
      | 0 => (.error e, 1, [])
      | fuel' + 1 =>
        let r := retryAux op interval (attempt + 1) fuel'
        (r.1, r.2.1 + 1, interval :: r.2.2)
    else (.error e, 1, [])

/-- `GoogleDrive.__retry(function)` with the instance's `max_retry`
and `retry_interval`: first attempt plus up to `max_retry` retries. -/
def retry {α : Type} (op : Nat → Except PyErr α) (maxRetry interval : Nat) :
    Except PyErr α × Nat × List Nat :=
  retryAux op interval 0 maxRetry

/-! ### Retry lemmas -/

lemma retryAux_ok {α : Type} (op : Nat → Except PyErr α) (interval : Nat) :
    ∀ (k attempt fuel : Nat) (a : α),
      k ≤ fuel →
      (∀ i < k, ∃ e, op (attempt + i) = .error e ∧ e.isTransient = true) →
      op (attempt + k) = .ok a →
      retryAux op interval attempt fuel = (.ok a, k + 1, List.replicate k interval) := by
  intro k
  induction k with
  | zero =>
    intro attempt fuel a _ _ hok
    simp only [Nat.add_zero] at hok
    simp [retryAux, hok]
  | succ k ih =>
    intro attempt fuel a hk hfail hok
    obtain ⟨e, he, het⟩ := hfail 0 (Nat.succ_pos k)
    simp only [Nat.add_zero] at he
    match fuel, hk with
    | fuel' + 1, hk =>
      have hrec := ih (attempt + 1) fuel' a (Nat.le_of_succ_le_succ hk)
        (fun i hi => by
          have := hfail (i + 1) (Nat.succ_lt_succ hi)
          simpa [Nat.add_comm i 1, ← Nat.add_assoc] using this)
        (by simpa [Nat.add_assoc, Nat.add_comm 1 k] using hok)
      simp [retryAux, he, het, hrec, List.replicate_succ]

lemma retryAux_allFail {α : Type} (op : Nat → Except PyErr α) (interval : Nat) :
    ∀ (fuel attempt : Nat),
      (∀ i ≤ fuel, ∃ e, op (attempt + i) = .error e ∧ e.isTransient = true) →
      ∃ e, op (attempt + fuel) = .error e ∧
        retryAux op interval attempt fuel =
          (.error e, fuel + 1, List.replicate fuel interval) := by
  intro fuel
  induction fuel with
  | zero =>
    intro attempt hfail
    obtain ⟨e, he, het⟩ := hfail 0 (Nat.le_refl 0)
    simp only [Nat.add_zero] at he
    exact ⟨e, by simpa using he, by simp [retryAux, he, het]⟩
  | succ fuel ih =>
    intro attempt hfail
    obtain ⟨e0, he0, het0⟩ := hfail 0 (Nat.zero_le _)
    simp only [Nat.add_zero] at he0
    obtain ⟨e, he, hrec⟩ := ih (attempt + 1)
      (fun i hi => by
        have := hfail (i + 1) (Nat.succ_le_succ hi)
        simpa [Nat.add_comm i 1, ← Nat.add_assoc] using this)
    refine ⟨e, by simpa [Nat.add_assoc, Nat.add_comm 1 fuel] using he, ?_⟩
    simp [retryAux, he0, het0, hrec, List.replicate_succ]

/-! ## Claim theorems: retry (C2, C7) -/

/-- C2: if the operation fails transiently on attempts `0..k-1`
(`k ≤ max_retry`) and succeeds on attempt `k`, `__retry` returns the
success result after `k+1` calls and sleeps exactly `k` times, each of
`retry_interval` seconds; and if it fails transiently on all
`max_retry + 1` attempts, `__retry` makes exactly `max_retry + 1`
calls, sleeps `max_retry` times and re-raises the final failure
unchanged. -/
theorem retry_transient_spec {α : Type} (op : Nat → Except PyErr α)
    (maxRetry interval k : Nat) (a : α) :
    (k ≤ maxRetry →
      (∀ i < k, ∃ e, op i = .error e ∧ e.isTransient = true) →
      op k = .ok a →
      retry op maxRetry interval = (.ok a, k + 1, List.replicate k interval)) ∧
    ((∀ i ≤ maxRetry, ∃ e, op i = .error e ∧ e.isTransient = true) →
      ∃ e, op maxRetry = .error e ∧
        retry op maxRetry interval =
          (.error e, maxRetry + 1, List.replicate maxRetry interval)) := by
  constructor
  · intro hk hfail hok
    exact retryAux_ok op interval k 0 maxRetry a hk
      (fun i hi => by simpa using hfail i hi) (by simpa using hok)
  · intro hfail
    obtain ⟨e, he, hrun⟩ := retryAux_allFail op interval maxRetry 0
      (fun i hi => by simpa using hfail i hi)
    exact ⟨e, by simpa using he, hrun⟩

/-- Witness for C2 at a concrete operation: failures on attempts 0 and 1,
success on attempt 2, with `max_retry = 3`; and an always-failing
operation with `max_retry = 3` making 4 calls. -/
theorem retry_transient_spec_witness :
    retry (fun i => if i < 2 then (.error .timeout : Except PyErr Nat) else .ok 42) 3 1 =
      (.ok 42, 3, [1, 1]) ∧
    retry (fun _ => (.error (.httpError 500) : Except PyErr Nat)) 3 1 =
      (.error (.httpError 500), 4, [1, 1, 1]) := by
  constructor
  · have h := (retry_transient_spec
      (fun i => if i < 2 then (.error .timeout : Except PyErr Nat) else .ok 42) 3 1 2 42).1
      (by decide)
      (fun i hi => ⟨.timeout, if_pos hi, rfl⟩)
      rfl
    simpa [List.replicate] using h
  · obtain ⟨e, he, hrun⟩ := (retry_transient_spec
      (fun _ => (.error (.httpError 500) : Except PyErr Nat)) 3 1 0 0).2
      (fun i _ => ⟨.httpError 500, rfl, rfl⟩)
    have he' : PyErr.httpError 500 = e := by simpa using he
    rw [← he'] at hrun
    simpa [List.replicate] using hrun

/-- C7: an operation failing with a non-transient error on the first
attempt propagates that error immediately: one call, no sleep, no
retry. -/
theorem retry_nontransient_spec {α : Type} (op : Nat → Except PyErr α)
    (maxRetry interval : Nat) (e : PyErr)
    (hfail : op 0 = .error e) (hnt : e.isTransient = false) :
    retry op maxRetry interval = (.error e, 1, []) := by
  simp [retry, retryAux, hfail, hnt]

/-- Witness for C7: a permission-denied-style error propagates with one
call and no sleep even though `max_retry = 3`. -/
theorem retry_nontransient_spec_witness :
    retry (fun _ => (.error (.other "PermissionDenied") : Except PyErr Nat)) 3 1 =
      (.error (.other "PermissionDenied"), 1, []) :=
  retry_nontransient_spec _ 3 1 _ rfl rfl

/-! ## Query and fields construction (`each_files`, src lines 70-82) -/

/-- The filter expression built by `each_files` (src lines 71-80):
parent-containment clause and caller query joined with `and` when both
are (Python-)truthy, one of them alone otherwise, else the empty
string. -/
def eachFilesQuery (parentId query : Option String) : String :=
  if pyTruthy parentId then
    if pyTruthy query then
      "'" ++ pyStr parentId ++ "' in parents and " ++ pyStr query
    else
      "'" ++ pyStr parentId ++ "' in parents"
  else
    if pyTruthy query then pyStr query else ""

/-- The fields preprocessing of `each_files` (src lines 81-82):
`if fields and 'nextPageToken' in fields: fields = 'nextPageToken,' + fields`.
Note the condition tests that `'nextPageToken'` IS a substring of
`fields`, so the prefix is prepended exactly when the caller already
included the token, and never when the caller omitted it. -/
def eachFilesFields (fields : Option String) : Option String :=
  if pyTruthy fields && strContains (pyStr fields) "nextPageToken" then
    some ("nextPageToken," ++ pyStr fields)
  else
    fields

/-! ## The remote Drive service, modelled as explicit state

The remote service is an out-of-scope external collaborator of the
repository, so its semantics are modelled from the spec: an opaque
store of file records, each with an identifier, a parent identifier, a
name, content bytes and a MIME type; a name query returns the matching
children in the service's order and the wrapper takes the first. -/

/-- A remote file record. -/
structure RFile where
  fid : String
  parent : String
  name : String
  content : List Nat
  mimetype : String
deriving DecidableEq, Repr

/-- The remote service's state: the stored files plus a counter from
which the service assigns fresh identifiers on create. -/
structure Drive where
  files : List RFile
  counter : Nat
deriving DecidableEq, Repr

/-- Modelled from the spec: the identifier the service assigns to the
next created file. -/
def Drive.freshId (d : Drive) : String :=
  "id" ++ toString d.counter

/-- `GoogleDrive.get_id(parent_id, name)` (src lines 99-104): issue the
query `'{parent_id}' in parents and name='{name}'` requesting only
`files(id)` and return the first match's identifier, or `None`.  A
`None` parent renders as the string `"None"` in the f-string, exactly
as in Python.  The service side (which records match the filter) is
modelled from the spec. -/
def Drive.getId (d : Drive) (parentId : Option String) (name : String) : Option String :=
  ((d.files.filter (fun f => f.parent == pyStr parentId && f.name == name)).head?).map RFile.fid

/-- `GoogleDrive.create_file` (src lines 106-110): create a file under
`parent_id` with the given name, content and MIME type; the service
(modelled from the spec) stores the record and returns the fresh
identifier. -/
def Drive.createFile (d : Drive) (parentId : Option String) (name : String)
    (content : List Nat) (mimetype : String) : String × Drive :=
  let fid := d.freshId
  (fid, ⟨d.files ++ [⟨fid, pyStr parentId, name, content, mimetype⟩], d.counter + 1⟩)

/-- `GoogleDrive.update_file_id` (src lines 115-118): replace the
content and MIME type of the file with the given identifier, in place;
all other records and all identifiers are untouched. -/
def Drive.updateFileId (d : Drive) (fileId : String)
    (content : List Nat) (mimetype : String) : Drive :=
  ⟨d.files.map (fun f =>
      if f.fid == fileId then { f with content := content, mimetype := mimetype } else f),
    d.counter⟩

/-- `GoogleDrive.read_file_id` (src lines 112-113): fetch the full
media content of the file with the given identifier. -/
def Drive.readFileId (d : Drive) (fileId : String) : Option (List Nat) :=
  (d.files.find? (fun f => f.fid == fileId)).map RFile.content

/-! ## Path resolution (`get_path_id`, src lines 95-97) -/

/-- `GoogleDrive.get_path_id(path, root_id='root')`: a left fold of
`get_id` over the path segments starting from `root_id`, exactly
`reduce(lambda parent, name: self.get_id(parent, name), path, root_id)`. -/
def Drive.getPathId (d : Drive) (path : List String) (rootId : String) : Option String :=
  path.foldl (fun parent name => d.getId parent name) (some rootId)

/-- Instrumented run of `get_path_id`: the final accumulator together
with the trace of `get_id` lookup calls issued, each recorded as the
(parent, name) pair it was invoked with. -/
def Drive.getPathIdTrace (d : Drive) :
    List String → Option String → Option String × List (Option String × String)
  | [], acc => (acc, [])
  | n :: rest, acc =>
    let r := Drive.getPathIdTrace d rest (d.getId acc n)
    (r.1, (acc, n) :: r.2)

/-! ## Public operations (`read`, `write`, `list`, src lines 41-68) -/

/-- The polymorphic `path` argument of `read`/`write`/`list`: a raw
identifier string or a sequence of path segments. -/
inductive PyPath : Type
  | str : String → PyPath
  | segs : List String → PyPath
deriving DecidableEq, Repr

/-- Parent resolution shared by `read` and `write` (src lines 42-45,
50-53): `path if isinstance(path, str) else self.get_path_id(path)`. -/
def rwParentId (d : Drive) (path : PyPath) : Option String :=
  match path with
  | .str s => some s
  | .segs l => d.getPathId l "root"

/-- Parent resolution of `list` (src lines 62-67): a raw identifier is
used directly, a (Python-)truthy i.e. non-empty segment sequence is
resolved, and anything else — `None` or an empty sequence — yields no
parent at all. -/
def listParentId (d : Drive) (path : Option PyPath) : Option String :=
  match path with
  | some (.str s) => some s
  | some (.segs l) => if l.isEmpty then none else d.getPathId l "root"
  | none => none

/-- `GoogleDrive.read(path, name)` (src lines 41-47): resolve the
parent, resolve `name` under it; if a (truthy) identifier was found,
fetch its media content, else return `None`. -/
def GoogleDrive.read (d : Drive) (path : PyPath) (name : String) : Option (List Nat) :=
  let parentId := rwParentId d path
  let fileid := d.getId parentId name
  if pyTruthy fileid then d.readFileId (pyStr fileid) else none

/-- The media-fetch calls (`read_file_id` invocations) issued by one
`read` call, by file identifier. -/
def readMediaCalls (d : Drive) (path : PyPath) (name : String) : List String :=
  let fileid := d.getId (rwParentId d path) name
  if pyTruthy fileid then [pyStr fileid] else []

/-- `GoogleDrive.write(path, name, content, mimetype)` (src lines
49-59): resolve the parent and the name; on a (truthy) existing
identifier update that file in place and return the identifier, else
create a new file under the parent and return the new identifier. -/
def GoogleDrive.write (d : Drive) (path : PyPath) (name : String)
    (content : List Nat) (mimetype : String) : String × Drive :=
  let parentId := rwParentId d path
  let fileid := d.getId parentId name
  if pyTruthy fileid then
    (pyStr fileid, d.updateFileId (pyStr fileid) content mimetype)
  else
    d.createFile parentId name content mimetype

/-! ## Pagination (`each_files` loop, src lines 83-93)

The remote side of `drivefiles.list` is modelled from the spec as the
finite sequence of page responses the service returns to the
successive requests of one listing; each response carries a file array
and an optional next-page token. -/

/-- One page response of the remote service. -/
structure PageResponse (α : Type) where
  files : List α
  nextPageToken : Option String

/-- One `drivefiles.list` page request as issued by the loop:
the filter, the (preprocessed) fields selection and the page token. -/
structure ListRequest where
  q : String
  fields : Option String
  pageToken : Option String
deriving DecidableEq, Repr

/-- The `while True` pagination loop of `each_files` (src lines
83-93), consuming the service's successive page responses: issue a
request with the current token, yield every record of the response's
file array, continue with the response's next-page token, and stop
when that token is absent.  Returns the yielded records and the trace
of requests issued. -/
def eachFilesRun {α : Type} (q : String) (fields : Option String) :
    Option String → List (PageResponse α) → List α × List ListRequest
  | _, [] => ([], [])
  | tok, r :: rest =>
    match r.nextPageToken with
    | none => (r.files, [⟨q, fields, tok⟩])
    | some t =>
      let k := eachFilesRun q fields (some t) rest
      (r.files ++ k.1, ⟨q, fields, tok⟩ :: k.2)

/-- `GoogleDrive.each_files(parent_id, query, fields)` (src lines
70-93): build the filter and the preprocessed fields, then run the
pagination loop starting with no page token. -/
def eachFiles {α : Type} (parentId query fields : Option String)
    (pages : List (PageResponse α)) : List α × List ListRequest :=
  eachFilesRun (eachFilesQuery parentId query) (eachFilesFields fields) none pages

/-- `GoogleDrive.list(path, query, fields)` (src lines 61-68): resolve
the optional parent and materialize the whole `each_files` sequence. -/
def GoogleDrive.list {α : Type} (d : Drive) (path : Option PyPath)
    (query fields : Option String) (pages : List (PageResponse α)) : List α :=
  (eachFiles (listParentId d path) query fields pages).1

/-! ## Supporting lemmas for the claim theorems -/

lemma eachFilesRun_fields_const {α : Type} (q : String) (fields : Option String) :
    ∀ (pages : List (PageResponse α)) (tok : Option String) (req : ListRequest),
      req ∈ (eachFilesRun q fields tok pages).2 → req.fields = fields := by
  intro pages
  induction pages with
  | nil =>
    intro tok req h
    simp [eachFilesRun] at h
  | cons r rest ih =>
    intro tok req h
    cases hnt : r.nextPageToken with
    | none =>
      simp [eachFilesRun, hnt] at h
      simp [h]
    | some t =>
      simp [eachFilesRun, hnt] at h
      rcases h with h | h
      · simp [h]
      · exact ih (some t) req h

/-! ## Claim theorem: fields preprocessing (C1) -/

/-- C1 (refuting the claimed behavior, in line with the source's
intent being injection): for every fields string that omits the
substring `nextPageToken`, the `each_files` preprocessing leaves the
field selection unchanged — no pagination field is injected — and
every page request of the listing is sent with that unchanged
selection.  The injection happens only when the caller already
included the token (duplicating it). -/
theorem eachFilesFields_no_injection (f : String)
    (hf : strContains f "nextPageToken" = false) :
    eachFilesFields (some f) = some f ∧
    (∀ {α : Type} (pid q : Option String) (pages : List (PageResponse α))
        (req : ListRequest),
      req ∈ (eachFiles pid q (some f) pages).2 → req.fields = some f) := by
  have hfields : eachFilesFields (some f) = some f := by
    simp [eachFilesFields, pyStr, hf]
  refine ⟨hfields, ?_⟩
  intro α pid q pages req hreq
  have := eachFilesRun_fields_const (eachFilesQuery pid q) (eachFilesFields (some f))
    pages none req
  rw [hfields] at this
  exact this (by simpa [eachFiles, hfields] using hreq)

/-- Witness for C1 at the concrete failing input `files(id, name)`:
the selection omits `nextPageToken` and is passed through unchanged,
so the response of the first page carries no next-page token and
pagination stops after one page. -/
theorem eachFilesFields_no_injection_witness :
    strContains "files(id, name)" "nextPageToken" = false ∧
    eachFilesFields (some "files(id, name)") = some "files(id, name)" :=
  ⟨by decide, (eachFilesFields_no_injection "files(id, name)" (by decide)).1⟩

/-! ## Claim theorem: filter construction (C8) -/

/-- C8: the filter built by `each_files` is
`'<id>' in parents and <query>` when both a parent identifier and a
caller query are present, `'<id>' in parents` for a parent alone, the
query unchanged for a query alone, and the empty string when neither
is present. -/
theorem eachFilesQuery_spec (pid q : String) (hpid : pid ≠ "") (hq : q ≠ "") :
    eachFilesQuery (some pid) (some q) = "'" ++ pid ++ "' in parents and " ++ q ∧
    eachFilesQuery (some pid) none = "'" ++ pid ++ "' in parents" ∧
    eachFilesQuery none (some q) = q ∧
    eachFilesQuery none none = "" := by
  refine ⟨?_, ?_, ?_, ?_⟩ <;> simp [eachFilesQuery, pyTruthy, pyStr, hpid, hq]

/-- Witness for C8 at concrete parent identifier and query strings. -/
theorem eachFilesQuery_spec_witness :
    eachFilesQuery (some "abc123") (some "trashed=false") =
      "'abc123' in parents and trashed=false" ∧
    eachFilesQuery (some "abc123") none = "'abc123' in parents" ∧
    eachFilesQuery none (some "trashed=false") = "trashed=false" ∧
    eachFilesQuery none none = "" := by
  have h := eachFilesQuery_spec "abc123" "trashed=false" (by decide) (by decide)
  exact ⟨h.1.trans (by decide), h.2.1.trans (by decide), h.2.2.1, h.2.2.2⟩

/-! ## Claim theorem: empty-path asymmetry (C10) -/

/-- C10: an empty segment sequence is handled asymmetrically: `read`
and `write` resolve it to the well-known `root` identifier with zero
lookup calls (so they behave exactly as with the raw identifier
`root`), whereas `list` treats it like `path=None`, resolving no
parent and building the filter without any parent-containment
clause. -/
theorem empty_path_asymmetry (d : Drive) (query : Option String) (name : String)
    (content : List Nat) (mimetype : String) :
    rwParentId d (PyPath.segs []) = some "root" ∧
    (d.getPathIdTrace [] (some "root")).2.length = 0 ∧
    GoogleDrive.read d (PyPath.segs []) name = GoogleDrive.read d (PyPath.str "root") name ∧
    GoogleDrive.write d (PyPath.segs []) name content mimetype =
      GoogleDrive.write d (PyPath.str "root") name content mimetype ∧
    listParentId d (some (PyPath.segs [])) = none ∧
    eachFilesQuery (listParentId d (some (PyPath.segs []))) query =
      eachFilesQuery none query :=
  ⟨rfl, rfl, rfl, rfl, rfl, rfl⟩

/-! ## Path resolution lemmas -/

lemma getPathIdTrace_spec (d : Drive) :
    ∀ (p : List String) (acc : Option String),
      (d.getPathIdTrace p acc).1 =
        p.foldl (fun parent name => d.getId parent name) acc ∧
      (d.getPathIdTrace p acc).2.length = p.length ∧
      (d.getPathIdTrace p acc).2.map Prod.snd = p := by
  intro p
  induction p with
  | nil => intro acc; exact ⟨rfl, rfl, rfl⟩
  | cons n rest ih =>
    intro acc
    refine ⟨?_, ?_, ?_⟩
    · simp [Drive.getPathIdTrace, (ih (d.getId acc n)).1]
    · simp [Drive.getPathIdTrace, (ih (d.getId acc n)).2.1]
    · simp [Drive.getPathIdTrace, (ih (d.getId acc n)).2.2]

lemma getId_none_parent (d : Drive) (hNone : ∀ f ∈ d.files, f.parent ≠ "None")
    (n : String) : d.getId none n = none := by
  have hfil : d.files.filter (fun f => f.parent == pyStr none && f.name == n) = [] := by
    rw [List.filter_eq_nil_iff]
    intro f hf
    simp [pyStr, hNone f hf]
  simp [Drive.getId, hfil]

lemma getPathIdTrace_append (d : Drive) :
    ∀ (p1 p2 : List String) (acc : Option String),
      d.getPathIdTrace (p1 ++ p2) acc =
        ((d.getPathIdTrace p2 (d.getPathIdTrace p1 acc).1).1,
         (d.getPathIdTrace p1 acc).2 ++
           (d.getPathIdTrace p2 (d.getPathIdTrace p1 acc).1).2) := by
  intro p1
  induction p1 with
  | nil => intro p2 acc; simp [Drive.getPathIdTrace]
  | cons n rest ih => intro p2 acc; simp [Drive.getPathIdTrace, ih]

lemma getPathIdTrace_noneParent (d : Drive)
    (hNone : ∀ f ∈ d.files, f.parent ≠ "None") :
    ∀ p : List String,
      d.getPathIdTrace p none =
        (none, p.map (fun n => ((none : Option String), n))) := by
  intro p
  induction p with
  | nil => rfl
  | cons n rest ih =>
    simp [Drive.getPathIdTrace, getId_none_parent d hNone, ih]

/-! ## Claim theorem: path resolution as a fold (C4) -/

/-- C4: `get_path_id` returns exactly the left fold of single-segment
resolution (`get_id`) over the path segments starting from the root
identifier, issuing exactly one lookup call per segment (with the
segments as the lookup names, in order); on the empty path it returns
the root identifier with zero lookup calls. -/
theorem getPathId_fold_calls (d : Drive) (p : List String) (rootId : String) :
    (d.getPathIdTrace p (some rootId)).1 = d.getPathId p rootId ∧
    d.getPathId p rootId =
      p.foldl (fun parent name => d.getId parent name) (some rootId) ∧
    (d.getPathIdTrace p (some rootId)).2.length = p.length ∧
    (d.getPathIdTrace p (some rootId)).2.map Prod.snd = p ∧
    (p = [] →
      d.getPathId p rootId = some rootId ∧
      (d.getPathIdTrace p (some rootId)).2 = []) := by
  have h := getPathIdTrace_spec d p (some rootId)
  refine ⟨h.1, rfl, h.2.1, h.2.2, ?_⟩
  rintro rfl
  exact ⟨rfl, rfl⟩

/-- A small concrete service state used by the witnesses:
`a` is a folder under the root containing `b`; `c` is a file under
the root. -/
def driveEx : Drive :=
  ⟨[⟨"id0", "root", "a", [1], "text/plain"⟩,
    ⟨"id1", "id0", "b", [2, 3], "text/plain"⟩,
    ⟨"id2", "root", "c", [4], "text/plain"⟩], 3⟩

/-- Witness for C4: resolving `a/b` in the concrete state reaches the
leaf `id1` in two lookup calls, and the empty path resolves to the
root with no calls. -/
theorem getPathId_fold_calls_witness :
    driveEx.getPathId [] "root" = some "root" ∧
    (driveEx.getPathIdTrace ["a", "b"] (some "root")).2.length = 2 ∧
    driveEx.getPathId ["a", "b"] "root" = some "id1" := by
  refine ⟨((getPathId_fold_calls driveEx [] "root").2.2.2.2 rfl).1, ?_, ?_⟩
  · exact (getPathId_fold_calls driveEx ["a", "b"] "root").2.2.1
  · exact ((getPathId_fold_calls driveEx ["a", "b"] "root").2.1).trans (by decide)

/-! ## Claim theorem: no short-circuit on a missing segment (C5) -/

/-- C5: `get_path_id` does not short-circuit on a missing intermediate
segment: when a prefix of the path already fails to resolve, the
remaining segments are still looked up, each with an absent (`None`)
parent identifier, and the overall result is absent rather than a
path-not-found error.  (The hypothesis that no stored file has the
literal parent string `"None"` reflects that real identifiers are
never that string.) -/
theorem getPathId_no_shortCircuit (d : Drive)
    (hNone : ∀ f ∈ d.files, f.parent ≠ "None")
    (p1 p2 : List String)
    (hfail : d.getPathId p1 "root" = none) :
    d.getPathId (p1 ++ p2) "root" = none ∧
    (d.getPathIdTrace (p1 ++ p2) (some "root")).2 =
      (d.getPathIdTrace p1 (some "root")).2 ++
        p2.map (fun n => ((none : Option String), n)) := by
  have h1 : (d.getPathIdTrace p1 (some "root")).1 = none :=
    (getPathIdTrace_spec d p1 (some "root")).1.trans hfail
  have happ := getPathIdTrace_append d p1 p2 (some "root")
  have hnp := getPathIdTrace_noneParent d hNone p2
  constructor
  · have hres : (d.getPathIdTrace (p1 ++ p2) (some "root")).1 = none := by
      rw [happ]
      simp [h1, hnp]
    exact ((getPathIdTrace_spec d (p1 ++ p2) (some "root")).1.symm).trans hres
  · rw [happ]
    simp [h1, hnp]

/-- Witness for C5: in the concrete state the segment `zzz` does not
resolve under the root, yet the follow-up segment `b` is still looked
up, with a `None` parent. -/
theorem getPathId_no_shortCircuit_witness :
    driveEx.getPathId ["zzz"] "root" = none ∧
    (driveEx.getPathIdTrace ["zzz", "b"] (some "root")).2 =
      [(some "root", "zzz"), ((none : Option String), "b")] := by
  have h := getPathId_no_shortCircuit driveEx (by decide) ["zzz"] ["b"] (by decide)
  exact ⟨by decide, h.2.trans (by decide)⟩

/-! ## Lookup lemmas for `read` and `write` -/

lemma getId_some (d : Drive) (pid : Option String) (name fid : String)
    (h : d.getId pid name = some fid) :
    ∃ f ∈ d.files, f.fid = fid ∧ f.parent = pyStr pid ∧ f.name = name := by
  unfold Drive.getId at h
  cases hl : d.files.filter (fun f => f.parent == pyStr pid && f.name == name) with
  | nil => simp [hl] at h
  | cons x xs =>
    have hx : x ∈ d.files.filter (fun f => f.parent == pyStr pid && f.name == name) := by
      rw [hl]
      exact List.mem_cons_self x xs
    have hmem := List.mem_filter.mp hx
    have hpred := hmem.2
    simp only [Bool.and_eq_true, beq_iff_eq] at hpred
    rw [hl] at h
    simp only [List.head?_cons, Option.map_some'] at h
    exact ⟨x, hmem.1, by simpa using h, hpred.1, hpred.2⟩

/-! ## Claim theorem: `write` is an upsert (C3) -/

/-- C3: `write` is an upsert.  If resolving `name` under the parent
yields an existing identifier, `write` returns that same identifier
and updates that file's content (and MIME type) in place, leaving
every identifier and every other record untouched.  If no identifier
is found, `write` creates a new file under the parent with the given
name, content and MIME type and returns the newly allocated
identifier, distinct from every existing one.  (The hypotheses state
that the service's identifiers are non-empty strings and that its
next fresh identifier is unused.) -/
theorem write_upsert (d : Drive) (path : PyPath) (name : String)
    (content : List Nat) (mimetype : String)
    (hids : ∀ f ∈ d.files, f.fid ≠ "")
    (hfresh : ∀ f ∈ d.files, f.fid ≠ d.freshId) :
    (∀ fid, d.getId (rwParentId d path) name = some fid →
      (GoogleDrive.write d path name content mimetype).1 = fid ∧
      (GoogleDrive.write d path name content mimetype).2.files.map RFile.fid =
        d.files.map RFile.fid ∧
      (∀ f ∈ d.files, f.fid ≠ fid →
        f ∈ (GoogleDrive.write d path name content mimetype).2.files) ∧
      (∀ f ∈ (GoogleDrive.write d path name content mimetype).2.files,
        f.fid = fid →
        f.content = content ∧ f.mimetype = mimetype ∧
        ∃ g ∈ d.files, g.fid = fid ∧ g.name = f.name ∧ g.parent = f.parent)) ∧
    (d.getId (rwParentId d path) name = none →
      (GoogleDrive.write d path name content mimetype).1 = d.freshId ∧
      (∀ f ∈ d.files, f.fid ≠ (GoogleDrive.write d path name content mimetype).1) ∧
      (GoogleDrive.write d path name content mimetype).2.files =
        d.files ++ [⟨d.freshId, pyStr (rwParentId d path), name, content, mimetype⟩]) := by
  constructor
  · intro fid hgid
    obtain ⟨g, hgmem, hgfid, _, _⟩ := getId_some d _ name fid hgid
    have hfid : fid ≠ "" := hgfid ▸ hids g hgmem
    have hw : GoogleDrive.write d path name content mimetype =
        (fid, d.updateFileId fid content mimetype) := by
      simp only [GoogleDrive.write]
      rw [hgid]
      simp [pyTruthy, pyStr, hfid]
    refine ⟨by rw [hw], ?_, ?_, ?_⟩
    · rw [hw]
      simp only [Drive.updateFileId, List.map_map]
      apply List.map_congr_left
      intro f _
      cases h' : (f.fid == fid) <;> simp [Function.comp, h']
    · intro f hf hne
      rw [hw]
      simp only [Drive.updateFileId]
      refine List.mem_map.mpr ⟨f, hf, ?_⟩
      simp [hne]
    · intro f hf hffid
      rw [hw] at hf
      simp only [Drive.updateFileId, List.mem_map] at hf
      obtain ⟨g0, hg0, hg0f⟩ := hf
      by_cases h0 : g0.fid = fid
      · rw [if_pos (by simpa using h0)] at hg0f
        refine ⟨by rw [← hg0f], by rw [← hg0f], g0, hg0, h0, ?_, ?_⟩
        · rw [← hg0f]
        · rw [← hg0f]
      · rw [if_neg (by simpa using h0)] at hg0f
        exact absurd (hg0f ▸ hffid) h0
  · intro hgid
    have hw : GoogleDrive.write d path name content mimetype =
        d.createFile (rwParentId d path) name content mimetype := by
      simp only [GoogleDrive.write]
      rw [hgid]
      simp [pyTruthy]
    rw [hw]
    exact ⟨rfl, fun f hf => hfresh f hf, rfl⟩

/-- Witness for C3: in the concrete state, writing to the existing
name `a` under the root returns the existing identifier `id0`, and
writing to the fresh name `new` returns the freshly allocated
identifier. -/
theorem write_upsert_witness :
    (GoogleDrive.write driveEx (PyPath.str "root") "a" [9] "text/plain").1 = "id0" ∧
    (GoogleDrive.write driveEx (PyPath.str "root") "new" [9] "text/plain").1 =
      driveEx.freshId := by
  have h1 := (write_upsert driveEx (PyPath.str "root") "a" [9] "text/plain"
    (by decide) (by decide)).1 "id0" (by decide)
  have h2 := (write_upsert driveEx (PyPath.str "root") "new" [9] "text/plain"
    (by decide) (by decide)).2 (by decide)
  exact ⟨h1.1, h2.1⟩

/-! ## Claim theorem: `read` of a missing name (C6) -/

/-- C6: when `name` does not resolve to an identifier under the
(resolved) parent, `read` returns `None` without any media-fetch
call; when it does resolve, `read` performs exactly one media fetch by
that identifier and returns the full stored content.  (The hypothesis
states that the service's identifiers are non-empty strings.) -/
theorem read_absent_or_fetch (d : Drive) (path : PyPath) (name : String)
    (hids : ∀ f ∈ d.files, f.fid ≠ "") :
    (d.getId (rwParentId d path) name = none →
      GoogleDrive.read d path name = none ∧ readMediaCalls d path name = []) ∧
    (∀ fid, d.getId (rwParentId d path) name = some fid →
      GoogleDrive.read d path name = d.readFileId fid ∧
      readMediaCalls d path name = [fid] ∧
      ∃ f ∈ d.files, f.fid = fid ∧
        GoogleDrive.read d path name = some f.content) := by
  constructor
  · intro hgid
    constructor
    · simp only [GoogleDrive.read]
      rw [hgid]
      simp [pyTruthy]
    · simp only [readMediaCalls]
      rw [hgid]
      simp [pyTruthy]
  · intro fid hgid
    obtain ⟨g, hgmem, hgfid, _, _⟩ := getId_some d _ name fid hgid
    have hfid : fid ≠ "" := hgfid ▸ hids g hgmem
    have hread : GoogleDrive.read d path name = d.readFileId fid := by
      simp only [GoogleDrive.read]
      rw [hgid]
      simp [pyTruthy, pyStr, hfid]
    have hcalls : readMediaCalls d path name = [fid] := by
      simp only [readMediaCalls]
      rw [hgid]
      simp [pyTruthy, pyStr, hfid]
    refine ⟨hread, hcalls, ?_⟩
    have hsome : (d.files.find? (fun f => f.fid == fid)).isSome :=
      List.find?_isSome.mpr ⟨g, hgmem, by simp [hgfid]⟩
    obtain ⟨u, hu⟩ := Option.isSome_iff_exists.mp hsome
    refine ⟨u, List.mem_of_find?_eq_some hu, ?_, ?_⟩
    · have := List.find?_some hu
      simpa using this
    · rw [hread]
      simp [Drive.readFileId, hu]

/-- Witness for C6: in the concrete state, reading the nonexistent
name `nope` under the root returns `None`, and reading the existing
name `a` returns its stored content. -/
theorem read_absent_or_fetch_witness :
    GoogleDrive.read driveEx (PyPath.str "root") "nope" = none ∧
    GoogleDrive.read driveEx (PyPath.str "root") "a" = some [1] := by
  have h1 := (read_absent_or_fetch driveEx (PyPath.str "root") "nope" (by decide)).1
    (by decide)
  have h2 := (read_absent_or_fetch driveEx (PyPath.str "root") "a" (by decide)).2
    "id0" (by decide)
  exact ⟨h1.1, h2.1.trans (by decide)⟩

/-! ## Pagination lemma -/

lemma eachFilesRun_pages {α : Type} (q : String) (fields : Option String) :
    ∀ (rs : List (PageResponse α)) (rlast : PageResponse α) (tok : Option String),
      (∀ r ∈ rs, (PageResponse.nextPageToken r).isSome = true) →
      rlast.nextPageToken = none →
      eachFilesRun q fields tok (rs ++ [rlast]) =
        (((rs ++ [rlast]).map PageResponse.files).flatten,
         (tok :: rs.map PageResponse.nextPageToken).map
           (fun t => ⟨q, fields, t⟩)) := by
  intro rs
  induction rs with
  | nil =>
    intro rlast tok _ hlast
    simp [eachFilesRun, hlast]
  | cons r rest ih =>
    intro rlast tok hmid hlast
    obtain ⟨t, ht⟩ := Option.isSome_iff_exists.mp (hmid r (List.mem_cons_self r rest))
    have hrec := ih rlast (some t) (fun x hx => hmid x (List.mem_cons_of_mem r hx)) hlast
    simp [eachFilesRun, ht, hrec]

/-! ## Claim theorem: pagination (C9) -/

/-- C9: over any sequence of page responses (each but the last
carrying a next-page token, the last carrying none), `each_files`
yields exactly the concatenation of the pages' file arrays — in page
order and within-page order, nothing dropped, nothing duplicated —
passing no token on the first request and each response's token on
the following request, issuing exactly one request per page (so the
loop terminates exactly at the response with no token); `list`
materializes that same sequence. -/
theorem eachFiles_pagination {α : Type} (parentId query fields : Option String)
    (d : Drive) (path : Option PyPath)
    (rs : List (PageResponse α)) (rlast : PageResponse α)
    (hmid : ∀ r ∈ rs, (PageResponse.nextPageToken r).isSome = true)
    (hlast : rlast.nextPageToken = none) :
    (eachFiles parentId query fields (rs ++ [rlast])).1 =
      ((rs ++ [rlast]).map PageResponse.files).flatten ∧
    (eachFiles parentId query fields (rs ++ [rlast])).2.map ListRequest.pageToken =
      none :: rs.map PageResponse.nextPageToken ∧
    (eachFiles parentId query fields (rs ++ [rlast])).2.length =
      (rs ++ [rlast]).length ∧
    GoogleDrive.list d path query fields (rs ++ [rlast]) =
      (eachFiles (listParentId d path) query fields (rs ++ [rlast])).1 := by
  have h := eachFilesRun_pages (eachFilesQuery parentId query)
    (eachFilesFields fields) rs rlast none hmid hlast
  refine ⟨?_, ?_, ?_, rfl⟩
  · simp only [eachFiles]
    rw [h]
  · simp only [eachFiles]
    rw [h]
    simp [List.map_map, Function.comp]
  · simp only [eachFiles]
    rw [h]
    simp

/-- Witness for C9 at the spec's example shape: 5 records over 3
pages of size at most 2 are all yielded in order, with the page
tokens threaded through the successive requests. -/
theorem eachFiles_pagination_witness :
    (eachFiles none none none
      ([⟨[1, 2], some "t1"⟩, ⟨[3, 4], some "t2"⟩, ⟨[5], none⟩] :
        List (PageResponse Nat))).1 = [1, 2, 3, 4, 5] ∧
    (eachFiles none none none
      ([⟨[1, 2], some "t1"⟩, ⟨[3, 4], some "t2"⟩, ⟨[5], none⟩] :
        List (PageResponse Nat))).2.map ListRequest.pageToken =
      [none, some "t1", some "t2"] := by
  have h := eachFiles_pagination none none none driveEx none
    ([⟨[1, 2], some "t1"⟩, ⟨[3, 4], some "t2"⟩] : List (PageResponse Nat))
    ⟨[5], none⟩ (by decide) rfl
  exact ⟨h.1.trans (by decide), h.2.1.trans (by decide)⟩
